import Mathlib

/-!
Verification development for the Outlook account creator (outlook_creator.py).

The Python source is shallowly embedded: each class method becomes a Lean
function over explicit state.  Randomness (`random.choice`, `random.randint`,
`random.shuffle`) is modelled by passing the chosen values / the resulting
permutation as parameters constrained by the documented range or by a
permutation hypothesis.  The CSV account file is modelled as a
`List AccountRow` (the parsed collection), with `Option` marking a possibly
missing file; the JSON TOTP file is a `List TotpEntry`.
-/

/-- One parsed row of the accounts CSV file (`csv.DictReader` yields string
fields). Column order follows `AccountManager.ensure_files_exist`. -/
structure AccountRow where
  email : String
  password : String
  first_name : String
  last_name : String
  birth_year : String
  birth_month : String
  birth_day : String
  totp_secret : String
  creation_time : String
  elapsed_time : String
deriving Repr, DecidableEq

/-- One entry of the TOTP secrets JSON file (`totp_secrets.json`). -/
structure TotpEntry where
  email : String
  secret : String
  time : String
deriving Repr, DecidableEq

/-- The `account_info` dictionary built by `create_outlook_account`:
identity fields plus a TOTP secret, an optional error message and an
optional elapsed time (modelled as a `Nat` tick count). -/
structure AccountInfo where
  email : String
  password : String
  first_name : String
  last_name : String
  birth_year : String
  birth_month : String
  birth_day : String
  totp_secret : String
  creation_time : String
  elapsed_time : Option Nat
  error : Option String
deriving Repr, DecidableEq

/-- The `account_info` dictionary built by `change_password` and consumed by
`AccountManager.update_account`: email, new password, optional TOTP secret
(empty string = absent), update time and elapsed time. -/
structure UpdateInfo where
  email : String
  new_password : String
  totp_secret : String
  update_time : String
  elapsed_time : String
deriving Repr, DecidableEq

/-! ## ProxyManager -/

/-- `ProxyManager.__init__`: an ordered proxy list and a rotation cursor. -/
structure ProxyManager where
  proxies : List String
  current_index : Nat
deriving Repr, DecidableEq

/-- `ProxyManager.add_proxy`: append the proxy only if not already present. -/
def add_proxy (pm : ProxyManager) (proxy : String) : ProxyManager :=
  if proxy ∈ pm.proxies then pm
  else { pm with proxies := pm.proxies ++ [proxy] }

/-- `ProxyManager.get_next_proxy`: `None` on an empty pool, otherwise the
endpoint at the cursor, advancing the cursor modulo the pool size.
(Python indexing `self.proxies[self.current_index]` is embedded as `get?`;
it yields `some` exactly when the cursor is in range.) -/
def get_next_proxy (pm : ProxyManager) : Option String × ProxyManager :=
  if pm.proxies.isEmpty then (none, pm)
  else (pm.proxies.get? pm.current_index,
        { pm with current_index := (pm.current_index + 1) % pm.proxies.length })

/-- Iterate `get_next_proxy` `n` times, collecting the returned endpoints. -/
def nextProxies (pm : ProxyManager) : Nat → List (Option String)
  | 0 => []
  | n + 1 =>
    let r := get_next_proxy pm
    r.1 :: nextProxies r.2 n

/-! ## Password generation (`generate_random_password`) -/

/-- `string.ascii_lowercase`. -/
def lowercaseChars : List Char := "abcdefghijklmnopqrstuvwxyz".toList

/-- `string.ascii_uppercase`. -/
def uppercaseChars : List Char := "ABCDEFGHIJKLMNOPQRSTUVWXYZ".toList

/-- `string.digits`. -/
def digitChars : List Char := "0123456789".toList

/-- The special-character alphabet of `generate_random_password`. -/
def specialChars : List Char := "!@#$%^&*()-_=+".toList

/-- The union alphabet `all_chars` used for the filler characters. -/
def allPasswordChars : List Char :=
  lowercaseChars ++ uppercaseChars ++ digitChars ++ specialChars

/-- The character list assembled by `generate_random_password` before the
final `random.shuffle`: one choice from each class, then
`length - 4` filler choices (`range` of a negative count is empty, which
`Int.toNat` reproduces).  The four class choices and the filler stream are
the values drawn from the random source. -/
def generate_random_password_chars (length : Int)
    (c1 c2 c3 c4 : Char) (fill : Nat → Char) : List Char :=
  [c1, c2, c3, c4] ++ (List.range (length - 4).toNat).map fill

/-! ## Birthday generation (`generate_random_birthday`) -/

/-! ## OutlookCreator: automation flow (`create_outlook_account`, `bind_totp`) -/

/-- The synthetic identity drawn at the top of `create_outlook_account`
(`generate_random_email`, `generate_random_password`, `generate_random_name`,
`generate_random_birthday`, and the creation timestamp).  Fields are kept in
their string form as they end up in `current_account`. -/
structure Identity where
  email_name : String
  password : String
  first_name : String
  last_name : String
  birth_year : String
  birth_month : String
  birth_day : String
  creation_time : String
deriving Repr, DecidableEq

/-- Outcome of one run of the browser automation inside
`create_outlook_account`: either the signup steps complete (carrying the
drawn identity, the outcome of the `bind_totp` sub-step and the elapsed
time), or some step raises, which the method's own `except` block catches
(carrying the identity already stored in `current_account`, the error text
and the elapsed time). -/
inductive AutoResult where
  | success (ident : Identity) (totpBind : Except String String) (elapsed : Nat)
  | failure (ident : Identity) (msg : String) (elapsed : Nat)
deriving Repr

/-- `OutlookCreator.bind_totp`: returns the generated secret, and on any
exception returns the empty string instead of propagating. -/
def bind_totp : Except String String → String
  | .ok s => s
  | .error _ => ""

/-- `OutlookCreator.create_outlook_account`: builds `current_account` from
the drawn identity; on success stores the `bind_totp` result and the elapsed
time; on an exception stores the error text and the elapsed time and returns
the dictionary instead of raising. -/
def create_outlook_account : AutoResult → AccountInfo
  | .success ident totpBind elapsed =>
    { email := ident.email_name ++ "@outlook.com"
      password := ident.password
      first_name := ident.first_name
      last_name := ident.last_name
      birth_year := ident.birth_year
      birth_month := ident.birth_month
      birth_day := ident.birth_day
      totp_secret := bind_totp totpBind
      creation_time := ident.creation_time
      elapsed_time := some elapsed
      error := none }
  | .failure ident msg elapsed =>
    { email := ident.email_name ++ "@outlook.com"
      password := ident.password
      first_name := ident.first_name
      last_name := ident.last_name
      birth_year := ident.birth_year
      birth_month := ident.birth_month
      birth_day := ident.birth_day
      totp_secret := ""
      creation_time := ident.creation_time
      elapsed_time := some elapsed
      error := some msg }

/-! ## AccountManager -/

/-- `str(value)` for the optional elapsed time written to the CSV row
(`account_info.get("elapsed_time", "")`). -/
def elapsedStr : Option Nat → String
  | none => ""
  | some n => toString n

/-- The CSV row written by `AccountManager.save_account`. -/
def rowOfInfo (info : AccountInfo) : AccountRow :=
  { email := info.email
    password := info.password
    first_name := info.first_name
    last_name := info.last_name
    birth_year := info.birth_year
    birth_month := info.birth_month
    birth_day := info.birth_day
    totp_secret := info.totp_secret
    creation_time := info.creation_time
    elapsed_time := elapsedStr info.elapsed_time }

/-- `AccountManager.save_account`: append one CSV row, and if the TOTP
secret is non-empty (Python truthiness of the string) append a TOTP entry
to the JSON collection. -/
def save_account (info : AccountInfo) (accounts : List AccountRow)
    (totps : List TotpEntry) : List AccountRow × List TotpEntry :=
  (accounts ++ [rowOfInfo info],
   if info.totp_secret ≠ "" then
     totps ++ [{ email := info.email, secret := info.totp_secret,
                 time := info.creation_time }]
   else totps)

/-- The in-place mutation of one matched row inside
`AccountManager.update_account`: overwrite the password, and the TOTP
secret only when the change carries a non-empty one. -/
def updateRow (chg : UpdateInfo) (r : AccountRow) : AccountRow :=
  { r with
    password := chg.new_password
    totp_secret := if chg.totp_secret ≠ "" then chg.totp_secret
                   else r.totp_secret }

/-- The `for account in accounts: ... break` loop of `update_account`:
rewrite the first row whose email matches and report whether one was found. -/
def update_loop (chg : UpdateInfo) : List AccountRow → List AccountRow × Bool
  | [] => ([], false)
  | r :: rs =>
    if r.email = chg.email then (updateRow chg r :: rs, true)
    else
      let p := update_loop chg rs
      (r :: p.1, p.2)

/-- The minimal row appended by `update_account` when no existing row
matches the email. -/
def minimalRow (chg : UpdateInfo) : AccountRow :=
  { email := chg.email
    password := chg.new_password
    first_name := ""
    last_name := ""
    birth_year := ""
    birth_month := ""
    birth_day := ""
    totp_secret := chg.totp_secret
    creation_time := chg.update_time
    elapsed_time := chg.elapsed_time }

/-- `AccountManager.update_account`, account-file part: read the whole
collection, overwrite the first matching row in place, append a minimal row
when none matches, and write the whole collection back. -/
def update_account (chg : UpdateInfo) (accounts : List AccountRow) :
    List AccountRow :=
  let p := update_loop chg accounts
  if p.2 then p.1 else p.1 ++ [minimalRow chg]

/-- The TOTP-file part of `update_account`: when the change carries a
non-empty secret, overwrite the first entry with a matching email or append
a new entry. -/
def update_totp_loop (chg : UpdateInfo) : List TotpEntry → List TotpEntry × Bool
  | [] => ([], false)
  | t :: ts =>
    if t.email = chg.email then
      ({ t with secret := chg.totp_secret, time := chg.update_time } :: ts, true)
    else
      let p := update_totp_loop chg ts
      (t :: p.1, p.2)

/-- `AccountManager.update_account`, TOTP-file part. -/
def update_totp (chg : UpdateInfo) (totps : List TotpEntry) : List TotpEntry :=
  if chg.totp_secret ≠ "" then
    let p := update_totp_loop chg totps
    if p.2 then p.1
    else p.1 ++ [{ email := chg.email, secret := chg.totp_secret,
                   time := chg.update_time }]
  else totps

/-- `AccountManager.load_accounts`: the parsed collection when the file
exists, the empty list when `open` raises `FileNotFoundError`. -/
def load_accounts : Option (List AccountRow) → List AccountRow
  | none => []
  | some rows => rows

/-! ## Store-operation sequences (for the §4.4 invariant) -/

/-- One call against the account store: `save_account` with a fresh
account's info, or `update_account` with a password-change result. -/
inductive StoreOp where
  | save (info : AccountInfo)
  | update (chg : UpdateInfo)
deriving Repr, DecidableEq

/-- The email key an operation addresses. -/
def opEmail : StoreOp → String
  | .save info => info.email
  | .update chg => chg.email

/-- The password an operation writes for its email. -/
def opPassword : StoreOp → String
  | .save info => info.password
  | .update chg => chg.new_password

/-- The TOTP secret an operation carries (possibly empty). -/
def opTotp : StoreOp → String
  | .save info => info.totp_secret
  | .update chg => chg.totp_secret

/-- Effect of one store operation on the account collection. -/
def applyOp (accounts : List AccountRow) : StoreOp → List AccountRow
  | .save info => (save_account info accounts []).1
  | .update chg => update_account chg accounts

/-- Effect of a sequence of store operations, first operation first. -/
def applyOps (accounts : List AccountRow) (ops : List StoreOp) :
    List AccountRow :=
  ops.foldl applyOp accounts

/-- Number of rows of the collection carrying a given email. -/
def countEmail (accounts : List AccountRow) (e : String) : Nat :=
  (accounts.filter (fun r => r.email = e)).length

/-- Whether some operation of the history addresses the email. -/
def touchedOps (ops : List StoreOp) (e : String) : Bool :=
  ops.any (fun op => opEmail op = e)

/-- The password written by the most recent operation addressing the email
(empty when none does). -/
def lastPassword (ops : List StoreOp) (e : String) : String :=
  ops.foldl (fun acc op => if opEmail op = e then opPassword op else acc) ""

/-- The most recent non-empty TOTP secret written for the email (empty when
none was). -/
def lastTotp (ops : List StoreOp) (e : String) : String :=
  ops.foldl
    (fun acc op => if opEmail op = e ∧ opTotp op ≠ "" then opTotp op else acc) ""

/-- A history in which every `save` is the first operation addressing its
email: each email is saved at most once, and never after an update touched
it.  (`save_account` never checks for prior existence, so this is the
discipline under which the §4.4 uniqueness invariant can hold.) -/
def GoodSeq (ops : List StoreOp) : Prop :=
  ∀ pre info post, ops = pre ++ .save info :: post →
    ∀ op ∈ pre, opEmail op ≠ info.email

/-- The §4.4 invariant, relative to the history that produced the state:
one row per touched email, no row for an untouched email, and every row
carries the most recent password and most recent non-empty TOTP secret of
its email. -/
def Consistent (ops : List StoreOp) (accounts : List AccountRow) : Prop :=
  (∀ e, countEmail accounts e = if touchedOps ops e then 1 else 0) ∧
  (∀ r ∈ accounts, r.password = lastPassword ops r.email ∧
     r.totp_secret = lastTotp ops r.email)

/-! ## The `create_accounts` worker (job dispatcher) -/

/-- What happens when a worker of `create_accounts` takes one task:
either constructing `OutlookCreator(proxy, headless)` raises (caught by the
worker's outer `except`), or a session is created and the automation runs
with some `AutoResult`. -/
inductive JobExec where
  | initFail (msg : String)
  | run (auto : AutoResult)

/-- What lands on the result queue for one task: the dictionary returned by
`create_outlook_account`, or the bare `{"error": str(e)}` dictionary built
by the worker's outer `except` block. -/
inductive JobResult where
  | account (info : AccountInfo)
  | infraError (msg : String)

/-- Observable effect of one worker iteration: the result pushed to the
result queue, whether an Automation Session (WebDriver) was constructed,
whether it was released (`creator.close()` in the `finally` block), and
whether `save_account` was invoked. -/
structure WorkerEffect where
  result : JobResult
  sessionCreated : Bool
  sessionReleased : Bool
  saved : Bool

/-- One iteration of the `worker` closure in `create_accounts`:
`OutlookCreator(...)` failure is caught by the outer `except`, which pushes
an error-only result (no session was created); otherwise
`create_outlook_account` runs (it catches its own exceptions and returns a
dictionary), the account is saved only when the dictionary has no `error`
key, the dictionary is pushed, and the `finally` block closes the session
on both paths. -/
def worker_task : JobExec → WorkerEffect
  | .initFail msg =>
    { result := .infraError msg
      sessionCreated := false
      sessionReleased := false
      saved := false }
  | .run auto =>
    let account_info := create_outlook_account auto
    { result := .account account_info
      sessionCreated := true
      sessionReleased := true
      saved := account_info.error.isNone }

/-- The whole batch: every enqueued task is processed by exactly one worker
iteration (the queue is pre-loaded and drained). -/
def runBatch (jobs : List JobExec) : List WorkerEffect :=
  jobs.map worker_task

/-! ## Concrete demonstration values -/

/-- A concrete identity used in closed statements. -/
def demoIdent : Identity :=
  { email_name := "a", password := "p", first_name := "f", last_name := "l",
    birth_year := "1990", birth_month := "1", birth_day := "2",
    creation_time := "t0" }

/-- A concrete fresh-account dictionary used in closed statements. -/
def demoInfo : AccountInfo :=
  { email := "a@outlook.com", password := "p", first_name := "f",
    last_name := "l", birth_year := "1990", birth_month := "1",
    birth_day := "2", totp_secret := "", creation_time := "t0",
    elapsed_time := none, error := none }

/-- A concrete password-change dictionary used in closed statements. -/
def demoChg : UpdateInfo :=
  { email := "a@outlook.com", new_password := "X", totp_secret := "",
    update_time := "t1", elapsed_time := "1" }

/-- A stored row for `a@outlook.com` with password `p1`. -/
def demoRowA : AccountRow :=
  { email := "a@outlook.com", password := "p1", first_name := "",
    last_name := "", birth_year := "", birth_month := "", birth_day := "",
    totp_secret := "", creation_time := "", elapsed_time := "" }

/-- A second stored row for the same email with password `p2`. -/
def demoRowB : AccountRow :=
  { email := "a@outlook.com", password := "p2", first_name := "",
    last_name := "", birth_year := "", birth_month := "", birth_day := "",
    totp_secret := "", creation_time := "", elapsed_time := "" }

/-- The leap-year test used for February:
`(year % 4 == 0 and year % 100 != 0) or (year % 400 == 0)`. -/
def is_leap_year (year : Int) : Bool :=
  (year % 4 == 0 && year % 100 != 0) || year % 400 == 0

/-- `generate_random_birthday`, parametrised by the current year and by the
random source `randint` (Python `random.randint a b` returns a value in the
inclusive range `[a, b]`). -/
def generate_random_birthday (current_year : Int)
    (randint : Int → Int → Int) : Int × Int × Int :=
  let year := randint (current_year - 50) (current_year - 18)
  let month := randint 1 12
  let day :=
    if month = 4 ∨ month = 6 ∨ month = 9 ∨ month = 11 then randint 1 30
    else if month = 2 then
      if is_leap_year year then randint 1 29 else randint 1 28
    else randint 1 31
  (year, month, day)

/-! # Theorems -/

/-! ## C4: round-robin proxy rotation -/

/-- C4: `get_next_proxy` returns `none` on an empty pool (leaving the state
unchanged); on a state with the cursor in range it returns the endpoint at
the cursor and advances the cursor modulo the pool size; and on the pool
`[a, b, c]` seven sequential calls return `a, b, c, a, b, c, a`. -/
theorem get_next_proxy_round_robin :
    (∀ pm : ProxyManager, pm.proxies = [] →
      (get_next_proxy pm).1 = none ∧ (get_next_proxy pm).2 = pm) ∧
    (∀ pm : ProxyManager, ∀ h : pm.current_index < pm.proxies.length,
      (get_next_proxy pm).1 = some (pm.proxies.get ⟨pm.current_index, h⟩) ∧
      (get_next_proxy pm).2.proxies = pm.proxies ∧
      (get_next_proxy pm).2.current_index =
        (pm.current_index + 1) % pm.proxies.length) ∧
    nextProxies ⟨["a", "b", "c"], 0⟩ 7 =
      [some "a", some "b", some "c", some "a", some "b", some "c", some "a"] := by
  refine ⟨?_, ?_, by decide⟩
  · intro pm hpm
    simp [get_next_proxy, hpm]
  · intro pm h
    have hne : pm.proxies.isEmpty = false := by
      cases hp : pm.proxies with
      | nil => rw [hp] at h; simp at h
      | cons a l => simp [hp]
    simp [get_next_proxy, hne, List.get?_eq_get h]

/-- Witness for C4 at a concrete allocator state. -/
theorem get_next_proxy_round_robin_witness :
    (get_next_proxy ⟨["a", "b", "c"], 0⟩).1 = some "a" ∧
    (get_next_proxy ⟨["a", "b", "c"], 0⟩).2.current_index = 1 ∧
    (get_next_proxy ⟨[], 5⟩).1 = none :=
  ⟨(get_next_proxy_round_robin.2.1 ⟨["a", "b", "c"], 0⟩ (by decide)).1,
   (get_next_proxy_round_robin.2.1 ⟨["a", "b", "c"], 0⟩ (by decide)).2.2,
   (get_next_proxy_round_robin.1 ⟨[], 5⟩ rfl).1⟩

/-! ## C7: idempotent, duplicate-free proxy insertion -/

/-- C7: `add_proxy` inserts only when absent, so adding the same endpoint
twice equals adding it once, and any sequence of `add_proxy` calls starting
from a duplicate-free pool leaves the pool duplicate-free. -/
theorem add_proxy_idempotent_nodup :
    (∀ (pm : ProxyManager) (p : String),
      add_proxy (add_proxy pm p) p = add_proxy pm p) ∧
    (∀ (pm : ProxyManager) (ps : List String), pm.proxies.Nodup →
      ((ps.foldl add_proxy pm).proxies).Nodup) := by
  have hstep : ∀ (pm : ProxyManager) (p : String),
      pm.proxies.Nodup → (add_proxy pm p).proxies.Nodup := by
    intro pm p hnd
    by_cases hmem : p ∈ pm.proxies
    · simp [add_proxy, hmem, hnd]
    · have hpr : (add_proxy pm p).proxies = pm.proxies ++ [p] := by
        simp [add_proxy, hmem]
      rw [hpr, List.nodup_append]
      refine ⟨hnd, List.nodup_singleton p, ?_⟩
      intro a ha hb
      simp only [List.mem_singleton] at hb
      exact hmem (hb ▸ ha)
  refine ⟨?_, ?_⟩
  · intro pm p
    by_cases hmem : p ∈ pm.proxies
    · simp [add_proxy, hmem]
    · have h2 : p ∈ (add_proxy pm p).proxies := by
        simp [add_proxy, hmem]
      conv_lhs => rw [add_proxy, if_pos h2]
  · intro pm ps
    induction ps generalizing pm with
    | nil => intro h; simpa using h
    | cons q qs ih =>
      intro hnd
      simpa [List.foldl_cons] using ih (add_proxy pm q) (hstep pm q hnd)

/-- Witness for C7 on a concrete pool. -/
theorem add_proxy_idempotent_nodup_witness :
    add_proxy (add_proxy ⟨[], 0⟩ "h:1") "h:1" = add_proxy ⟨[], 0⟩ "h:1" ∧
    ((["h:1", "h:2", "h:1"].foldl add_proxy ⟨[], 0⟩).proxies).Nodup :=
  ⟨add_proxy_idempotent_nodup.1 ⟨[], 0⟩ "h:1",
   add_proxy_idempotent_nodup.2 ⟨[], 0⟩ ["h:1", "h:2", "h:1"] List.nodup_nil⟩

/-! ## C8: loading tolerates a missing store file -/

/-- C8: `load_accounts` returns the current full collection when the store
file is present, and the empty collection (rather than failing) when the
file is missing. -/
theorem load_accounts_total :
    (∀ rows : List AccountRow, load_accounts (some rows) = rows) ∧
    load_accounts none = ([] : List AccountRow) :=
  ⟨fun _ => rfl, rfl⟩

/-! ## C2: one JobResult per job, failures contained, session released -/

/-- C2: every job of a batch yields exactly one result on the result queue;
an exception inside the automation procedure is caught and turned into a
failure result carrying the error text and the elapsed time (and the record
is not saved), so no job failure propagates out of its worker iteration;
and whenever an Automation Session was constructed for a job it is released,
on the success path and on the failure path alike. -/
theorem worker_one_result_per_job (jobs : List JobExec) :
    (runBatch jobs).length = jobs.length ∧
    (∀ j ∈ jobs,
      (worker_task j).sessionCreated = true →
        (worker_task j).sessionReleased = true) ∧
    (∀ (ident : Identity) (msg : String) (elapsed : Nat),
      (worker_task (.run (.failure ident msg elapsed))).result =
        .account (create_outlook_account (.failure ident msg elapsed)) ∧
      (create_outlook_account (.failure ident msg elapsed)).error = some msg ∧
      (create_outlook_account (.failure ident msg elapsed)).elapsed_time =
        some elapsed ∧
      (worker_task (.run (.failure ident msg elapsed))).saved = false) := by
  refine ⟨by simp [runBatch], ?_, ?_⟩
  · intro j _ _
    cases j with
    | initFail msg => simp [worker_task] at *
    | run auto => simp [worker_task]
  · intro ident msg elapsed
    exact ⟨rfl, rfl, rfl, rfl⟩

/-- Witness for C2 on a one-job batch whose automation step fails. -/
theorem worker_one_result_per_job_witness :
    (runBatch [JobExec.run (.failure demoIdent "boom" 5)]).length = 1 ∧
    (worker_task (JobExec.run (.failure demoIdent "boom" 5))).sessionReleased
      = true :=
  ⟨(worker_one_result_per_job [JobExec.run (.failure demoIdent "boom" 5)]).1,
   (worker_one_result_per_job [JobExec.run (.failure demoIdent "boom" 5)]).2.1
     (JobExec.run (.failure demoIdent "boom" 5))
     (List.mem_singleton.mpr rfl) rfl⟩

/-! ## C10: a TOTP-binding failure degrades to an empty secret -/

/-- C10: when the TOTP-binding sub-step fails with any exception,
`bind_totp` returns the empty string instead of propagating; the
create-account job therefore still produces a result without an `error`
field whose `totp_secret` is empty, the worker saves it, and `save_account`
appends the account row while leaving the TOTP collection unchanged. -/
theorem bind_totp_failure_soft (ident : Identity) (msg : String)
    (elapsed : Nat) (accounts : List AccountRow) (totps : List TotpEntry) :
    bind_totp (.error msg) = "" ∧
    (create_outlook_account (.success ident (.error msg) elapsed)).error
      = none ∧
    (create_outlook_account (.success ident (.error msg) elapsed)).totp_secret
      = "" ∧
    (worker_task (.run (.success ident (.error msg) elapsed))).saved = true ∧
    (save_account (create_outlook_account (.success ident (.error msg) elapsed))
        accounts totps).1 =
      accounts ++
        [rowOfInfo (create_outlook_account (.success ident (.error msg) elapsed))] ∧
    (save_account (create_outlook_account (.success ident (.error msg) elapsed))
        accounts totps).2 = totps := by
  refine ⟨rfl, rfl, rfl, rfl, rfl, ?_⟩
  simp [save_account, create_outlook_account, bind_totp]

/-! ## C5: generated passwords of requested length at least 4 -/

/-- C5: whatever the random choices, a password generated with requested
length at least 4 has exactly the requested length, and (the shuffle being a
permutation) contains at least one lowercase letter, one uppercase letter,
one digit and one symbol character. -/
theorem generate_random_password_policy (length : Int) (c1 c2 c3 c4 : Char)
    (fill : Nat → Char) (out : List Char)
    (h1 : c1 ∈ lowercaseChars) (h2 : c2 ∈ uppercaseChars)
    (h3 : c3 ∈ digitChars) (h4 : c4 ∈ specialChars)
    (hlen : 4 ≤ length)
    (hperm : out.Perm (generate_random_password_chars length c1 c2 c3 c4 fill)) :
    (out.length : Int) = length ∧
    (∃ c ∈ out, c ∈ lowercaseChars) ∧ (∃ c ∈ out, c ∈ uppercaseChars) ∧
    (∃ c ∈ out, c ∈ digitChars) ∧ (∃ c ∈ out, c ∈ specialChars) := by
  have hl := hperm.length_eq
  simp [generate_random_password_chars] at hl
  have hmem : ∀ c ∈ [c1, c2, c3, c4], c ∈ out := by
    intro c hc
    exact hperm.mem_iff.mpr
      (by simp [generate_random_password_chars]; simp at hc; tauto)
  exact ⟨by omega,
    ⟨c1, hmem c1 (by simp), h1⟩, ⟨c2, hmem c2 (by simp), h2⟩,
    ⟨c3, hmem c3 (by simp), h3⟩, ⟨c4, hmem c4 (by simp), h4⟩⟩

/-- Witness for C5 with requested length 12 and concrete random choices. -/
theorem generate_random_password_policy_witness :
    ((generate_random_password_chars 12 'a' 'A' '0' '!' (fun _ => 'z')).length
      : Int) = 12 ∧
    (∃ c ∈ generate_random_password_chars 12 'a' 'A' '0' '!' (fun _ => 'z'),
      c ∈ lowercaseChars) ∧
    (∃ c ∈ generate_random_password_chars 12 'a' 'A' '0' '!' (fun _ => 'z'),
      c ∈ uppercaseChars) ∧
    (∃ c ∈ generate_random_password_chars 12 'a' 'A' '0' '!' (fun _ => 'z'),
      c ∈ digitChars) ∧
    (∃ c ∈ generate_random_password_chars 12 'a' 'A' '0' '!' (fun _ => 'z'),
      c ∈ specialChars) :=
  generate_random_password_policy 12 'a' 'A' '0' '!' (fun _ => 'z') _
    (by decide) (by decide) (by decide) (by decide) (by decide)
    (List.Perm.refl _)

/-! ## C9: requested lengths below 4 are padded up to 4 -/

/-- C9: for a requested length strictly below 4 (including 0 and negative
values) the generated password still has length exactly 4 and one character
from each class; in general the output length is `max(requested, 4)`. -/
theorem generate_random_password_min_length (length : Int) (c1 c2 c3 c4 : Char)
    (fill : Nat → Char) (out : List Char)
    (h1 : c1 ∈ lowercaseChars) (h2 : c2 ∈ uppercaseChars)
    (h3 : c3 ∈ digitChars) (h4 : c4 ∈ specialChars)
    (hperm : out.Perm (generate_random_password_chars length c1 c2 c3 c4 fill)) :
    (out.length : Int) = max length 4 ∧
    (length < 4 → out.length = 4) ∧
    (∃ c ∈ out, c ∈ lowercaseChars) ∧ (∃ c ∈ out, c ∈ uppercaseChars) ∧
    (∃ c ∈ out, c ∈ digitChars) ∧ (∃ c ∈ out, c ∈ specialChars) := by
  have hl := hperm.length_eq
  simp [generate_random_password_chars] at hl
  have hmem : ∀ c ∈ [c1, c2, c3, c4], c ∈ out := by
    intro c hc
    exact hperm.mem_iff.mpr
      (by simp [generate_random_password_chars]; simp at hc; tauto)
  exact ⟨by omega, by omega,
    ⟨c1, hmem c1 (by simp), h1⟩, ⟨c2, hmem c2 (by simp), h2⟩,
    ⟨c3, hmem c3 (by simp), h3⟩, ⟨c4, hmem c4 (by simp), h4⟩⟩

/-- Witness for C9 with requested length `-1`. -/
theorem generate_random_password_min_length_witness :
    ((generate_random_password_chars (-1) 'a' 'A' '0' '!'
        (fun _ => 'z')).length : Int) = max (-1) 4 ∧
    ((-1 : Int) < 4 →
      (generate_random_password_chars (-1) 'a' 'A' '0' '!'
        (fun _ => 'z')).length = 4) ∧
    (∃ c ∈ generate_random_password_chars (-1) 'a' 'A' '0' '!' (fun _ => 'z'),
      c ∈ lowercaseChars) ∧
    (∃ c ∈ generate_random_password_chars (-1) 'a' 'A' '0' '!' (fun _ => 'z'),
      c ∈ uppercaseChars) ∧
    (∃ c ∈ generate_random_password_chars (-1) 'a' 'A' '0' '!' (fun _ => 'z'),
      c ∈ digitChars) ∧
    (∃ c ∈ generate_random_password_chars (-1) 'a' 'A' '0' '!' (fun _ => 'z'),
      c ∈ specialChars) :=
  generate_random_password_min_length (-1) 'a' 'A' '0' '!' (fun _ => 'z') _
    (by decide) (by decide) (by decide) (by decide) (List.Perm.refl _)

/-! ## C6: birthdate bounds -/

/-- C6: whatever the random draws, the generated birth year lies in
`[current_year - 50, current_year - 18]` (so the age is between 18 and 50),
the month lies in `[1, 12]`, and the day respects the per-month bound:
at most 30 for April, June, September and November; for February at most 29
in a leap year (divisible by 4 and not by 100, or divisible by 400) and at
most 28 otherwise; at most 31 for the remaining months; and always at
least 1. -/
theorem generate_random_birthday_bounds (current_year : Int)
    (randint : Int → Int → Int)
    (hr : ∀ a b : Int, a ≤ b → a ≤ randint a b ∧ randint a b ≤ b) :
    (current_year - 50 ≤ (generate_random_birthday current_year randint).1 ∧
      (generate_random_birthday current_year randint).1 ≤ current_year - 18) ∧
    (18 ≤ current_year - (generate_random_birthday current_year randint).1 ∧
      current_year - (generate_random_birthday current_year randint).1 ≤ 50) ∧
    (1 ≤ (generate_random_birthday current_year randint).2.1 ∧
      (generate_random_birthday current_year randint).2.1 ≤ 12) ∧
    1 ≤ (generate_random_birthday current_year randint).2.2 ∧
    (((generate_random_birthday current_year randint).2.1 = 4 ∨
      (generate_random_birthday current_year randint).2.1 = 6 ∨
      (generate_random_birthday current_year randint).2.1 = 9 ∨
      (generate_random_birthday current_year randint).2.1 = 11) →
      (generate_random_birthday current_year randint).2.2 ≤ 30) ∧
    ((generate_random_birthday current_year randint).2.1 = 2 →
      (is_leap_year (generate_random_birthday current_year randint).1 = true →
        (generate_random_birthday current_year randint).2.2 ≤ 29) ∧
      (is_leap_year (generate_random_birthday current_year randint).1 = false →
        (generate_random_birthday current_year randint).2.2 ≤ 28)) ∧
    (¬((generate_random_birthday current_year randint).2.1 = 2 ∨
       (generate_random_birthday current_year randint).2.1 = 4 ∨
       (generate_random_birthday current_year randint).2.1 = 6 ∨
       (generate_random_birthday current_year randint).2.1 = 9 ∨
       (generate_random_birthday current_year randint).2.1 = 11) →
      (generate_random_birthday current_year randint).2.2 ≤ 31) := by
  have hy := hr (current_year - 50) (current_year - 18) (by omega)
  have hm := hr 1 12 (by omega)
  have h28 := hr 1 28 (by omega)
  have h29 := hr 1 29 (by omega)
  have h30 := hr 1 30 (by omega)
  have h31 := hr 1 31 (by omega)
  simp only [generate_random_birthday]
  split_ifs with hif1 hif2 hif3 <;>
    · refine ⟨⟨hy.1, hy.2⟩, ⟨by omega, by omega⟩, ⟨hm.1, hm.2⟩, ?_, ?_, ?_, ?_⟩ <;>
        simp_all <;> omega

/-- Witness for C6 at `current_year = 2024` with `randint` returning the
lower bound. -/
theorem generate_random_birthday_bounds_witness :
    18 ≤ 2024 - (generate_random_birthday 2024 (fun a _ => a)).1 ∧
    2024 - (generate_random_birthday 2024 (fun a _ => a)).1 ≤ 50 :=
  (generate_random_birthday_bounds 2024 (fun a _ => a)
    (fun a _ h => ⟨le_refl a, h⟩)).2.1

/-! ## Store lemmas for the §4.4 invariant and the upsert round-trip -/

lemma countEmail_nil (e : String) : countEmail [] e = 0 := rfl

lemma countEmail_cons (r : AccountRow) (rs : List AccountRow) (e : String) :
    countEmail (r :: rs) e =
      (if r.email = e then 1 else 0) + countEmail rs e := by
  by_cases h : r.email = e <;> simp [countEmail, List.filter_cons, h, Nat.add_comm]

lemma countEmail_append (l1 l2 : List AccountRow) (e : String) :
    countEmail (l1 ++ l2) e = countEmail l1 e + countEmail l2 e := by
  simp [countEmail, List.filter_append]

lemma countEmail_eq_zero {accounts : List AccountRow} {e : String} :
    countEmail accounts e = 0 ↔ ∀ r ∈ accounts, r.email ≠ e := by
  simp [countEmail, List.length_eq_zero, List.filter_eq_nil_iff]

lemma updateRow_email (chg : UpdateInfo) (r : AccountRow) :
    (updateRow chg r).email = r.email := rfl

lemma update_loop_not_found (chg : UpdateInfo) (accounts : List AccountRow)
    (h : ∀ r ∈ accounts, r.email ≠ chg.email) :
    update_loop chg accounts = (accounts, false) := by
  induction accounts with
  | nil => rfl
  | cons r rs ih =>
    have hr : ¬r.email = chg.email := h r (by simp)
    have ht := ih (fun x hx => h x (by simp [hx]))
    simp [update_loop, hr, ht]

lemma update_loop_found (chg : UpdateInfo) (accounts : List AccountRow)
    (h : 0 < countEmail accounts chg.email) :
    (update_loop chg accounts).2 = true := by
  induction accounts with
  | nil => simp [countEmail] at h
  | cons r rs ih =>
    by_cases hr : r.email = chg.email
    · simp [update_loop, hr]
    · rw [countEmail_cons] at h
      simp [hr] at h
      simp [update_loop, hr, ih h]

lemma update_loop_counts (chg : UpdateInfo) (accounts : List AccountRow)
    (e : String) :
    countEmail (update_loop chg accounts).1 e = countEmail accounts e := by
  induction accounts with
  | nil => rfl
  | cons r rs ih =>
    by_cases hr : r.email = chg.email
    · simp [update_loop, hr, countEmail_cons, updateRow_email]
    · simp [update_loop, hr, countEmail_cons, ih]

lemma update_loop_rows (chg : UpdateInfo) (accounts : List AccountRow)
    (hcount : countEmail accounts chg.email ≤ 1) :
    ∀ r ∈ (update_loop chg accounts).1,
      (r.email ≠ chg.email ∧ r ∈ accounts) ∨
      (∃ r0 ∈ accounts, r0.email = chg.email ∧ r = updateRow chg r0) := by
  induction accounts with
  | nil => simp [update_loop]
  | cons a rs ih =>
    by_cases ha : a.email = chg.email
    · have hrs : countEmail rs chg.email = 0 := by
        rw [countEmail_cons, if_pos ha] at hcount
        omega
      intro r hr
      rw [update_loop, if_pos ha] at hr
      rcases List.mem_cons.mp hr with h1 | h2
      · exact Or.inr ⟨a, by simp, ha, h1⟩
      · exact Or.inl ⟨countEmail_eq_zero.mp hrs r h2, by simp [h2]⟩
    · have hcount2 : countEmail rs chg.email ≤ 1 := by
        rw [countEmail_cons, if_neg ha] at hcount
        omega
      intro r hr
      rw [update_loop, if_neg ha] at hr
      rcases List.mem_cons.mp hr with h1 | h2
      · exact Or.inl ⟨h1 ▸ ha, by simp [h1]⟩
      · rcases ih hcount2 r h2 with ⟨hne, hmem⟩ | ⟨r0, hr0, he0, heq⟩
        · exact Or.inl ⟨hne, by simp [hmem]⟩
        · exact Or.inr ⟨r0, by simp [hr0], he0, heq⟩

lemma update_account_not_found (chg : UpdateInfo) (accounts : List AccountRow)
    (h : countEmail accounts chg.email = 0) :
    update_account chg accounts = accounts ++ [minimalRow chg] := by
  have h2 := update_loop_not_found chg accounts (countEmail_eq_zero.mp h)
  simp [update_account, h2]

lemma update_account_found (chg : UpdateInfo) (accounts : List AccountRow)
    (h : 0 < countEmail accounts chg.email) :
    update_account chg accounts = (update_loop chg accounts).1 := by
  simp [update_account, update_loop_found chg accounts h]

lemma update_account_counts (chg : UpdateInfo) (accounts : List AccountRow)
    (e : String) (h : 0 < countEmail accounts chg.email) :
    countEmail (update_account chg accounts) e = countEmail accounts e := by
  rw [update_account_found chg accounts h, update_loop_counts]

lemma touchedOps_append_one (h : List StoreOp) (op : StoreOp) (e : String) :
    touchedOps (h ++ [op]) e =
      (touchedOps h e || decide (opEmail op = e)) := by
  simp [touchedOps]

lemma lastPassword_append_one (h : List StoreOp) (op : StoreOp) (e : String) :
    lastPassword (h ++ [op]) e =
      if opEmail op = e then opPassword op else lastPassword h e := by
  simp [lastPassword, List.foldl_append]

lemma lastTotp_append_one (h : List StoreOp) (op : StoreOp) (e : String) :
    lastTotp (h ++ [op]) e =
      if opEmail op = e ∧ opTotp op ≠ "" then opTotp op else lastTotp h e := by
  simp [lastTotp, List.foldl_append]

lemma lastPassword_untouched (h : List StoreOp) (e : String)
    (hu : touchedOps h e = false) : lastPassword h e = "" := by
  induction h with
  | nil => rfl
  | cons op t ih =>
    simp [touchedOps] at hu
    have h1 : ¬opEmail op = e := hu.1
    have h2 := ih (by simp [touchedOps]; exact hu.2)
    simpa [lastPassword, h1] using h2

lemma lastTotp_untouched (h : List StoreOp) (e : String)
    (hu : touchedOps h e = false) : lastTotp h e = "" := by
  induction h with
  | nil => rfl
  | cons op t ih =>
    simp [touchedOps] at hu
    have h1 : ¬(opEmail op = e ∧ opTotp op ≠ "") := fun hc => hu.1 hc.1
    have h2 := ih (by simp [touchedOps]; exact hu.2)
    simpa [lastTotp, h1] using h2

lemma touched_of_mem (h : List StoreOp) (op : StoreOp) (hm : op ∈ h) :
    touchedOps h (opEmail op) = true := by
  simp [touchedOps]
  exact ⟨op, hm, rfl⟩

lemma consistent_step (h : List StoreOp) (st : List AccountRow) (op : StoreOp)
    (hc : Consistent h st)
    (hsave : ∀ info, op = .save info → ∀ op2 ∈ h, opEmail op2 ≠ info.email) :
    Consistent (h ++ [op]) (applyOp st op) := by
  simp only [Consistent] at hc ⊢
  obtain ⟨hcnt, hrows⟩ := hc
  cases op with
  | save info =>
    have huntouched : touchedOps h info.email = false := by
      by_contra hcon
      rw [Bool.not_eq_false, touchedOps, List.any_eq_true] at hcon
      obtain ⟨op2, hop2, heq⟩ := hcon
      exact hsave info rfl op2 hop2 (by simpa using heq)
    have hcount0 : countEmail st info.email = 0 := by
      simp [hcnt info.email, huntouched]
    have happ : applyOp st (.save info) = st ++ [rowOfInfo info] := rfl
    rw [happ]
    refine ⟨?_, ?_⟩
    · intro e
      rw [countEmail_append, touchedOps_append_one]
      by_cases he : info.email = e
      · subst he
        simp [opEmail, hcount0, countEmail_cons, countEmail_nil, rowOfInfo]
      · have h2 : (rowOfInfo info).email = info.email := rfl
        simp [opEmail, he, hcnt e, countEmail_cons, countEmail_nil, h2]
    · intro r hr
      rcases List.mem_append.mp hr with hmem | hnew
      · have hne : r.email ≠ info.email := countEmail_eq_zero.mp hcount0 r hmem
        rw [lastPassword_append_one, lastTotp_append_one]
        have h1 : ¬(opEmail (.save info) = r.email) := by
          simp only [opEmail]
          exact fun hx => hne hx.symm
        simp only [if_neg h1, if_neg (fun hx => h1 (And.left hx))]
        exact hrows r hmem
      · simp only [List.mem_singleton] at hnew
        subst hnew
        have hemail : (rowOfInfo info).email = info.email := rfl
        rw [lastPassword_append_one, lastTotp_append_one, hemail]
        refine ⟨by simp [opEmail, opPassword, rowOfInfo], ?_⟩
        by_cases htot : info.totp_secret = ""
        · simp [opEmail, opTotp, htot, rowOfInfo,
                lastTotp_untouched h info.email huntouched]
        · simp [opEmail, opTotp, htot, rowOfInfo]
  | update chg =>
    have happ : applyOp st (.update chg) = update_account chg st := rfl
    rw [happ]
    by_cases ht : touchedOps h chg.email = true
    · have hcount1 : countEmail st chg.email = 1 := by
        simp [hcnt chg.email, ht]
      have hfound : 0 < countEmail st chg.email := by omega
      rw [update_account_found chg st hfound]
      refine ⟨?_, ?_⟩
      · intro e
        rw [update_loop_counts, touchedOps_append_one]
        by_cases he : chg.email = e
        · subst he
          simp [opEmail, hcount1, ht]
        · simp [opEmail, he, hcnt e]
      · intro r hr
        rcases update_loop_rows chg st (by omega) r hr with
          ⟨hne, hmem⟩ | ⟨r0, hr0, he0, heq⟩
        · rw [lastPassword_append_one, lastTotp_append_one]
          have h1 : ¬(opEmail (.update chg) = r.email) := by
            simp only [opEmail]
            exact fun hx => hne hx.symm
          simp only [if_neg h1, if_neg (fun hx => h1 (And.left hx))]
          exact hrows r hmem
        · subst heq
          have hemail : (updateRow chg r0).email = chg.email := by
            rw [updateRow_email, he0]
          rw [lastPassword_append_one, lastTotp_append_one, hemail]
          refine ⟨by simp [opEmail, opPassword, updateRow], ?_⟩
          by_cases htot : chg.totp_secret = ""
          · have hrow := hrows r0 hr0
            have hcond : ¬(opEmail (.update chg) = chg.email ∧
                opTotp (.update chg) ≠ "") := by
              simp [opEmail, opTotp, htot]
            rw [if_neg hcond]
            have hkeep : (updateRow chg r0).totp_secret = r0.totp_secret := by
              simp [updateRow, htot]
            rw [hkeep, ← he0]
            exact hrow.2
          · simp [opEmail, opTotp, htot, updateRow]
    · have ht2 : touchedOps h chg.email = false := by
        simpa using ht
      have hcount0 : countEmail st chg.email = 0 := by
        simp [hcnt chg.email, ht2]
      rw [update_account_not_found chg st hcount0]
      refine ⟨?_, ?_⟩
      · intro e
        rw [countEmail_append, touchedOps_append_one]
        by_cases he : chg.email = e
        · subst he
          simp [opEmail, hcount0, countEmail_cons, countEmail_nil, minimalRow,
                ht2]
        · have h2 : (minimalRow chg).email = chg.email := rfl
          simp [opEmail, he, hcnt e, countEmail_cons, countEmail_nil, h2]
      · intro r hr
        rcases List.mem_append.mp hr with hmem | hnew
        · have hne : r.email ≠ chg.email := countEmail_eq_zero.mp hcount0 r hmem
          rw [lastPassword_append_one, lastTotp_append_one]
          have h1 : ¬(opEmail (.update chg) = r.email) := by
            simp only [opEmail]
            exact fun hx => hne hx.symm
          simp only [if_neg h1, if_neg (fun hx => h1 (And.left hx))]
          exact hrows r hmem
        · simp only [List.mem_singleton] at hnew
          subst hnew
          have hemail : (minimalRow chg).email = chg.email := rfl
          rw [lastPassword_append_one, lastTotp_append_one, hemail]
          refine ⟨by simp [opEmail, opPassword, minimalRow], ?_⟩
          by_cases htot : chg.totp_secret = ""
          · simp [opEmail, opTotp, htot, minimalRow,
                  lastTotp_untouched h chg.email ht2]
          · simp [opEmail, opTotp, htot, minimalRow]

lemma consistent_applyOps (ops : List StoreOp) :
    ∀ (h : List StoreOp) (st : List AccountRow), Consistent h st →
      GoodSeq (h ++ ops) → Consistent (h ++ ops) (applyOps st ops) := by
  induction ops with
  | nil =>
    intro h st hc _
    simpa [applyOps] using hc
  | cons op rest ih =>
    intro h st hc hg
    have hassoc : h ++ op :: rest = (h ++ [op]) ++ rest := by simp
    have hsave : ∀ info, op = .save info → ∀ op2 ∈ h, opEmail op2 ≠ info.email := by
      intro info hop op2 hop2
      subst hop
      exact hg h info rest rfl op2 hop2
    have hstep := consistent_step h st op hc hsave
    have happly : applyOps st (op :: rest) = applyOps (applyOp st op) rest := by
      simp [applyOps]
    rw [hassoc, happly]
    exact ih (h ++ [op]) (applyOp st op) hstep (hassoc ▸ hg)

/-! ## C1: the §4.4 store invariant -/

/-- C1 (amended): for a sequence of `save_account`/`update_account` calls in
which every `save` is the first operation addressing its email (each email
saved at most once and not after an update touched it — `save_account`
never checks for prior existence, so this discipline is required), the
resulting collection contains exactly one row per distinct touched email
and no others, and each row carries the most recent password and the most
recent non-empty TOTP secret written for its email. -/
theorem store_invariant (ops : List StoreOp) (hg : GoodSeq ops) :
    (∀ e, countEmail (applyOps [] ops) e =
      if touchedOps ops e then 1 else 0) ∧
    (∀ r ∈ applyOps [] ops,
      r.password = lastPassword ops r.email ∧
      r.totp_secret = lastTotp ops r.email) := by
  have hbase : Consistent [] [] := by
    refine ⟨fun e => ?_, by simp⟩
    simp [countEmail_nil, touchedOps]
  have h := consistent_applyOps ops [] [] hbase (by simpa using hg)
  simpa [Consistent] using h

/-- Counterexample to C1 as stated: saving the same email twice (which
`save_account` never prevents) leaves two rows for one distinct email. -/
theorem store_invariant_counterexample :
    countEmail (applyOps [] [.save demoInfo, .save demoInfo])
        "a@outlook.com" = 2 ∧
    touchedOps [.save demoInfo, .save demoInfo] "a@outlook.com" = true := by
  constructor <;> rfl

/-- Witness for C1 on a concrete single-update history. -/
theorem store_invariant_witness :
    countEmail (applyOps [] [.update demoChg]) demoChg.email = 1 := by
  have hg : GoodSeq [.update demoChg] := by
    intro pre info post heq op2 hop2
    exfalso
    have hlen := congrArg List.length heq
    simp at hlen
    have hpre : pre = [] := List.eq_nil_of_length_eq_zero (by omega)
    subst hpre
    simp at heq
  have h := (store_invariant [.update demoChg] hg).1 demoChg.email
  rw [show touchedOps [StoreOp.update demoChg] demoChg.email = true from rfl]
    at h
  simpa using h

/-! ## C3: save/load round-trip and the upsert -/

/-- C3 (amended): `save_account` followed by `load_accounts` always yields a
collection containing a row with the saved email; and on a store state with
exactly one row for the change's email, `update_account` followed by
`load_accounts` yields exactly one row for that email, carrying the new
password; when no row has that email, `update_account` appends a new
minimal row instead. -/
theorem save_load_roundtrip_upsert :
    (∀ (accounts : List AccountRow) (totps : List TotpEntry)
        (info : AccountInfo),
      ∃ r, r ∈ load_accounts (some (save_account info accounts totps).1) ∧
        r.email = info.email) ∧
    (∀ (accounts : List AccountRow) (chg : UpdateInfo),
      countEmail accounts chg.email = 1 →
        countEmail (load_accounts (some (update_account chg accounts)))
          chg.email = 1 ∧
        ∀ r ∈ load_accounts (some (update_account chg accounts)),
          r.email = chg.email → r.password = chg.new_password) ∧
    (∀ (accounts : List AccountRow) (chg : UpdateInfo),
      countEmail accounts chg.email = 0 →
        update_account chg accounts = accounts ++ [minimalRow chg]) := by
  refine ⟨?_, ?_, ?_⟩
  · intro accounts totps info
    refine ⟨rowOfInfo info, ?_, rfl⟩
    simp [save_account, load_accounts]
  · intro accounts chg hone
    have hpos : 0 < countEmail accounts chg.email := by omega
    rw [update_account_found chg accounts hpos]
    refine ⟨by simpa [load_accounts] using
      (update_loop_counts chg accounts chg.email).trans hone, ?_⟩
    intro r hr hre
    rcases update_loop_rows chg accounts (by omega) r
        (by simpa [load_accounts] using hr) with ⟨hne, _⟩ | ⟨r0, _, _, heq⟩
    · exact absurd hre hne
    · subst heq
      rfl
  · intro accounts chg hzero
    exact update_account_not_found chg accounts hzero

/-- Counterexample to C3 as stated: on a store state holding two rows for
the email (reachable by saving the same email twice), the upsert rewrites
only the first row, so two rows remain and one still carries the old
password. -/
theorem save_load_roundtrip_upsert_counterexample :
    countEmail (update_account demoChg [demoRowA, demoRowB])
        "a@outlook.com" = 2 ∧
    ∃ r ∈ update_account demoChg [demoRowA, demoRowB],
      r.email = "a@outlook.com" ∧ r.password ≠ "X" := by
  refine ⟨rfl, demoRowB, ?_, rfl, by decide⟩
  decide

/-- Witness for C3 at a concrete one-row store. -/
theorem save_load_roundtrip_upsert_witness :
    countEmail (load_accounts (some (update_account demoChg [demoRowA])))
      demoChg.email = 1 :=
  (save_load_roundtrip_upsert.2.1 [demoRowA] demoChg rfl).1
